import Mathlib

/-!
Verification of the audio core of the `Music-Player` repository
(`src/music_visualizer_1-0/src/song.rs`).

The Rust code is shallowly embedded as follows:

* `f32` audio samples are modelled as exact rationals (`ℚ`); the stored
  16-bit PCM samples of a WAV file are modelled as `Int`.
* The filesystem is an explicit map `String → Option FileContent`, threaded
  through the functions that read or write files; each operation also
  returns the list of effects (`Ev`) it performed, so that claims about
  "writes exactly one file" or "never invokes the resampler" can be stated.
* The `hound` WAV reader and the `rubato` resampler are external crates;
  they are modelled by their documented interfaces (see `houndReadI16` and
  `RubatoResampler`), while every function of `song.rs` itself is
  translated line by line.
* The `cpal` device is modelled by the `Device` structure recording the
  results the code observes (supported-configs query, default config,
  stream construction / start success).
-/

/-! ### PCM sample codec

`load_wav` normalizes a stored `i16` sample by dividing by `i16::MAX`
(`32767`); `save_wav` multiplies by `32767` and converts with `as i16`,
which truncates toward zero and saturates. -/

/-- Truncation of a rational toward zero, the behaviour of Rust's
`as`-cast from `f32` to an integer type (before saturation). -/
def ratTrunc (q : ℚ) : Int :=
  q.num.tdiv (q.den : Int)

/-- Saturation of an integer into the `i16` range, the behaviour of
Rust's saturating `as i16` cast. -/
def i16Clamp (i : Int) : Int :=
  max (-32768) (min 32767 i)

/-- `save_wav`'s per-sample conversion: `(sample * i16::MAX as f32) as i16`. -/
def encodeSample (q : ℚ) : Int :=
  i16Clamp (ratTrunc (q * 32767))

/-- `load_wav`'s per-sample conversion: `s as f32 / i16::MAX as f32`. -/
def decodeSample (i : Int) : ℚ :=
  (i : ℚ) / 32767

/-- One round trip of an in-memory sample through the 16-bit PCM cache
file: encode on `save_wav`, decode on the next `load_wav`. -/
def quantizeSample (q : ℚ) : ℚ :=
  decodeSample (encodeSample q)

/-! ### Files and the filesystem -/

/-- Content of a path on disk, as far as the player observes it: either a
WAV file (channel count, declared sample rate, bits per sample, stored
integer samples) or a file whose header `hound::WavReader::open` rejects. -/
inductive FileContent where
  | wav (channels : Nat) (sampleRate : Nat) (bitsPerSample : Nat) (samples : List Int)
  | corrupt
deriving DecidableEq

/-- The filesystem, threaded explicitly through the embedded functions. -/
def FS : Type := String → Option FileContent

/-- Write (create or overwrite) a file, as `hound::WavWriter::create` does. -/
def FS.write (fs : FS) (path : String) (c : FileContent) : FS :=
  fun p => if p = path then some c else fs p

/-- Modelled from the spec and the `hound` crate's documented interface
(the crate itself is not part of this repository): reading one sample as
`i16` succeeds exactly when the file's bit depth fits in 16 bits, and
fails (`Err`) on a wider format. -/
def houndReadI16 (bits : Nat) (s : Int) : Option Int :=
  if bits ≤ 16 then some s else none

/-- `Song::load_wav`: open the WAV file (failing when it is missing or its
header is unreadable), then read every sample as `i16`, replacing each
failed sample read by `0` (`s.unwrap_or(0)`), and normalize by `i16::MAX`.
Returns the samples together with the file's declared sample rate. -/
def Song.load_wav (fs : FS) (path : String) : Option (List ℚ × Nat) :=
  match fs path with
  | none => none
  | some .corrupt => none
  | some (.wav _ rate bits samples) =>
      some (samples.map (fun s => decodeSample ((houndReadI16 bits s).getD 0)), rate)

/-- The WAV file written by `save_wav`: 16 bits per sample, the given rate
and channel count, samples converted by `encodeSample`. -/
def wavFileOf (samples : List ℚ) (rate : Nat) (channels : Nat) : FileContent :=
  .wav channels rate 16 (samples.map encodeSample)

/-- `Song::save_wav`: create the parent directory, then write every sample
scaled by `i16::MAX` and truncated to `i16`.  I/O failure (`EncodeError`)
is environmental and is not modelled; the embedding always succeeds. -/
def Song.save_wav (fs : FS) (path : String) (samples : List ℚ) (rate : Nat)
    (channels : Nat) : FS :=
  fs.write path (wavFileOf samples rate channels)

/-! ### Title / filename mapping

The Rust code works on `String`; the embedding performs the same
operations on the underlying character list. -/

/-- Rust `Vec::join(sep)`: concatenate the parts with `sep` between
consecutive parts. -/
def joinSep (sep : List Char) : List (List Char) → List Char
  | [] => []
  | [w] => w
  | w :: ws => w ++ sep ++ joinSep sep ws

/-- `title.rfind('.')` followed by `title.truncate(index)`: cut the string
at the last `'.'` when one occurs, otherwise leave it unchanged. -/
def truncAtLastDot (l : List Char) : List Char :=
  if '.' ∈ l then ((l.reverse.dropWhile (fun c => c ≠ '.')).drop 1).reverse else l

/-- The per-word capitalization of `get_title_from_file`: uppercase the
first character, keep the rest.  (`char::to_uppercase` is a single
character for the ASCII inputs this program handles.) -/
def capitalizeWord : List Char → List Char
  | [] => []
  | c :: rest => c.toUpper :: rest

/-- `Song::get_title_from_file`: strip the extension at the last dot,
split on `'-'`, capitalize each word, join with spaces. -/
def Song.get_title_from_file (song_file_name : String) : String :=
  ⟨joinSep [' '] (((truncAtLastDot song_file_name.toList).splitOn '-').map capitalizeWord)⟩

/-- Rust `str::split_whitespace`: the maximal runs of non-whitespace
characters (splitting on whitespace discards the empty pieces). -/
def splitWhitespaceChars (l : List Char) : List (List Char) :=
  (l.splitOnP (fun c => c.isWhitespace)).filter (fun w => !w.isEmpty)

/-- `Song::get_file_from_title`: split the title on whitespace, lowercase
each word, join with `'-'` and append `".wav"`. -/
def Song.get_file_from_title (title : String) : String :=
  ⟨joinSep ['-'] ((splitWhitespaceChars title.toList).map (fun w => w.map Char.toLower))
    ++ ".wav".toList⟩

/-- The lowercase ASCII letters: the alphabet of the "lowercase
hyphen-separated words" the round-trip claim quantifies over. -/
def lowercaseAscii : List Char :=
  ['a', 'b', 'c', 'd', 'e', 'f', 'g', 'h', 'i', 'j', 'k', 'l', 'm',
   'n', 'o', 'p', 'q', 'r', 's', 't', 'u', 'v', 'w', 'x', 'y', 'z']

/-! ### Device capability probe (`cpal`, as observed by the code) -/

/-- One supported output configuration's sample-rate range. -/
structure SupportedRange where
  minRate : Nat
  maxRate : Nat
deriving DecidableEq

/-- The device's default output configuration, as far as the code reads
it: its sample rate and whether its sample format is `F32`. -/
structure DefaultCfg where
  rate : Nat
  formatF32 : Bool
deriving DecidableEq

/-- The default output device: the outcome of the supported-configs query
(`none` models an `Err`), the outcome of the default-config query, and
whether building and starting an output stream succeed. -/
structure Device where
  configsResult : Option (List SupportedRange)
  defaultConfig : Option DefaultCfg
  buildStreamOk : Bool
  streamPlayOk : Bool
deriving DecidableEq

/-- `Song::determine_final_sample_rate`: scan the supported ranges for one
containing the file's rate; when none matches and the default-config query
succeeds, fall back to the device's default rate; on a missing device, a
failed configs query, or a failed default-config query the fallback stays
the file's own rate.  Returns `(supports_native_rate, final_rate)`. -/
def Song.determine_final_sample_rate (host : Option Device) (file_sample_rate : Nat) :
    Bool × Nat :=
  match host with
  | none => (false, file_sample_rate)
  | some device =>
    match device.configsResult with
    | some configs =>
      if configs.any (fun config =>
          decide (config.minRate ≤ file_sample_rate ∧ file_sample_rate ≤ config.maxRate)) then
        (true, file_sample_rate)
      else
        match device.defaultConfig with
        | some default_config => (false, default_config.rate)
        | none => (false, file_sample_rate)
    | none => (false, file_sample_rate)

/-! ### Resampling engine (`rubato::FftFixedInOut`, modelled abstractly)

The resampler is an external crate.  Following the spec (§4.3), it is
modelled as a block processor with a fixed required input-frame count per
channel (`input_frames_next`, constant for `FftFixedInOut`) and an
arbitrary per-block transfer function. -/

/-- Modelled from the spec: the `rubato` FFT resampler, reduced to what
the code observes — the required frames per input block and the per-block
processing function. -/
structure RubatoResampler where
  inputFrames : Nat
  process : List (List ℚ) → List (List ℚ)

/-- The de-interleaving loop: sample `i` of the flat input goes to channel
`i % channels`, in order. -/
def deinterleave (channels : Nat) (input : List ℚ) : List (List ℚ) :=
  (List.range channels).map
    (fun c => ((input.enum.filter (fun p => p.1 % channels == c)).map Prod.snd))

/-- One input block for the resampler, starting at frame `start`: each
channel contributes `frames` entries, taking the channel's sample where it
exists and leaving the `0.0` of the freshly allocated `vec![0.0; frames]`
otherwise. -/
def mkChunk (ipc : List (List ℚ)) (frames start : Nat) : List (List ℚ) :=
  ipc.map (fun channel => (List.range frames).map (fun i => channel.getD (start + i) 0))

/-- `(0 .. stop).step_by(step)`: the multiples of `step` below `stop`
(`step_by` is only ever called with the resampler's positive block size;
`step = 0` is mapped to the empty list). -/
def stepBy (stop step : Nat) : List Nat :=
  if step = 0 then [] else (List.range ((stop + step - 1) / step)).map (· * step)

/-- The sequence of blocks the chunking loop of `resample_to_device_rate`
hands to `resampler.process`, in order. -/
def blocksFed (R : RubatoResampler) (input : List ℚ) (channels : Nat) :
    List (List (List ℚ)) :=
  let ipc := deinterleave channels input
  (stepBy (ipc.headD []).length R.inputFrames).map (mkChunk ipc R.inputFrames)

/-- The re-interleaving loop: for each output frame index, push one sample
per channel. -/
def interleave (chans : List (List ℚ)) : List ℚ :=
  (List.range (chans.headD []).length).flatMap (fun i => chans.map (fun ch => ch.getD i 0))

/-- `Song::resample_to_device_rate`: construct the resampler for the rate
pair (abstracted by `mk from_rate to_rate`), de-interleave, process the
input in fixed-size blocks (the final block zero-padded), concatenate each
channel's output blocks, and re-interleave. -/
def Song.resample_to_device_rate (mk : Nat → Nat → RubatoResampler) (input : List ℚ)
    (from_rate to_rate : Nat) (channels : Nat) : List ℚ :=
  let R := mk from_rate to_rate
  let processed := (blocksFed R input channels).map R.process
  let all_resampled := (List.range channels).map
    (fun ch => (processed.map (fun block => block.getD ch [])).flatten)
  interleave all_resampled

/-! ### Cache manager -/

/-- An observable side effect of preparing the audio data: a file write or
an invocation of the resampling engine. -/
inductive Ev where
  | write (path : String) (content : FileContent)
  | resample (from_rate to_rate : Nat) (input : List ℚ)
deriving DecidableEq

/-- Whether an effect is a file write. -/
def Ev.isWrite : Ev → Bool
  | .write .. => true
  | .resample .. => false

/-- Whether an effect is a resampler invocation. -/
def Ev.isResample : Ev → Bool
  | .write .. => false
  | .resample .. => true

/-- The canonical cache path: `music_cache/{Title}-{rate}Hz.wav`. -/
def cachePathFor (song_file_name : String) (final_rate : Nat) : String :=
  "music_cache/" ++ Song.get_title_from_file song_file_name ++ "-" ++ toString final_rate ++ "Hz.wav"

/-- `Song::resample_and_cache`: resample, then save the result to the
cache path (a failed save is logged and ignored).  Returns the resampled
samples, the new filesystem, and the effects performed. -/
def Song.resample_and_cache (mk : Nat → Nat → RubatoResampler) (fs : FS) (input : List ℚ)
    (from_rate to_rate : Nat) (channels : Nat) (cache_path : String) :
    List ℚ × FS × List Ev :=
  let resampled := Song.resample_to_device_rate mk input from_rate to_rate channels
  (resampled,
   Song.save_wav fs cache_path resampled to_rate channels,
   [Ev.resample from_rate to_rate input,
    Ev.write cache_path (wavFileOf resampled to_rate channels)])

/-- The cache-miss tail of `prepare_audio_data` ("No cache exists; process
the original file"): resample and cache when the rates differ, otherwise
copy the source samples into the cache unchanged. -/
def Song.processOriginal (mk : Nat → Nat → RubatoResampler) (fs : FS) (cache_path : String)
    (raw_samples : List ℚ) (file_sample_rate final_rate : Nat) :
    (List ℚ × Nat) × FS × List Ev :=
  let channels := 2
  if file_sample_rate ≠ final_rate then
    let r := Song.resample_and_cache mk fs raw_samples file_sample_rate final_rate
      channels cache_path
    ((r.1, final_rate), r.2.1, r.2.2)
  else
    ((raw_samples, final_rate),
     Song.save_wav fs cache_path raw_samples final_rate channels,
     [Ev.write cache_path (wavFileOf raw_samples final_rate channels)])

/-- `Song::prepare_audio_data`: determine the final rate, build the cache
path, prefer a decodable existing cache file, and otherwise process the
original samples (falling through when the existing cache file fails to
load, exactly as the code does after logging the load error). -/
def Song.prepare_audio_data (host : Option Device) (mk : Nat → Nat → RubatoResampler)
    (fs : FS) (song_file_name : String) (raw_samples : List ℚ) (file_sample_rate : Nat) :
    (List ℚ × Nat) × FS × List Ev :=
  let final_rate := (Song.determine_final_sample_rate host file_sample_rate).2
  let cache_path := cachePathFor song_file_name final_rate
  if (fs cache_path).isSome then
    match Song.load_wav fs cache_path with
    | some cached => ((cached.1, final_rate), fs, [])
    | none =>
      Song.processOriginal mk fs cache_path raw_samples file_sample_rate final_rate
  else
    Song.processOriginal mk fs cache_path raw_samples file_sample_rate final_rate

/-! ### Playback engine and the `Song` orchestrator -/

/-- The per-stream playback cursor: `play` wraps a fresh copy of the
song's `current_frame` in an `Arc<Mutex<_>>` for the device callback;
`initialFrame` records the value it was created with and `frameCount` is
the live counter the callback advances. -/
structure StreamSt where
  initialFrame : Nat
  frameCount : Nat
deriving DecidableEq

/-- The `Song` struct.  `audio_stream` carries the per-stream cursor state
(the stream resource itself is opaque); `audio_data` is the shared sample
buffer. -/
structure Song where
  is_playing : Bool
  audio_stream : Option StreamSt
  audio_data : List ℚ
  current_frame : Nat
  title : String
  filename : String
  final_sample_rate : Nat

/-- `Song::empty`. -/
def Song.empty : Song where
  is_playing := false
  audio_stream := none
  audio_data := []
  current_frame := 0
  title := ""
  filename := ""
  final_sample_rate := 44100

/-- The body of the device callback for one invocation with `slots` output
slots: for each slot, emit the buffer sample at the cursor when the cursor
is in range and `0.0` otherwise, then advance the cursor by one.  Returns
the filled output block and the final cursor value. -/
def callback_fill (audio_data : List ℚ) (count : Nat) (slots : Nat) : List ℚ × Nat :=
  match slots with
  | 0 => ([], count)
  | n + 1 =>
    let s := if h : count < audio_data.length then audio_data.get ⟨count, h⟩ else 0
    let rest := callback_fill audio_data (count + 1) n
    (s :: rest.1, rest.2)

/-- `Song::play`: do nothing when a stream is already open; otherwise
query the device and its default config, require the `F32` sample format,
and build the output stream with a callback bound to the shared buffer and
a fresh cursor copied from `current_frame`.  The stream is stored whenever
construction succeeds — even when starting it (`stream.play()`) fails, the
code only logs and still assigns `self.audio_stream = Some(stream)`. -/
def Song.play (host : Option Device) (s : Song) : Song :=
  if s.audio_stream.isSome then s
  else
    match host with
    | none => s
    | some device =>
      match device.defaultConfig with
      | none => s
      | some supported_config =>
        if supported_config.formatF32 then
          if device.buildStreamOk then
            { s with
                audio_stream :=
                  some ({ initialFrame := s.current_frame, frameCount := s.current_frame }) }
          else s
        else s

/-- `Song::pause`: drop the output stream. -/
def Song.pause (s : Song) : Song :=
  { s with audio_stream := none }

/-- `Song::update`: start or stop playback according to the requested
state, then record the requested state in `is_playing` unconditionally. -/
def Song.update (host : Option Device) (s : Song) (should_play : Bool) : Song :=
  let s1 :=
    if should_play && !s.is_playing then Song.play host s
    else if !should_play && s.is_playing then Song.pause s
    else s
  { s1 with is_playing := should_play }

/-- One device-driven callback invocation against the song's state: when a
stream is open, fill `slots` output slots and advance that stream's
cursor; the callback never touches `current_frame`, the buffer, or the
stream resource itself. -/
def Song.stepCallback (s : Song) (slots : Nat) : Song :=
  match s.audio_stream with
  | none => s
  | some st =>
    { s with
        audio_stream :=
          some ({ st with frameCount := (callback_fill s.audio_data st.frameCount slots).2 }) }

/-- An event of the running player: a control-thread `update` or a
device-thread callback invocation. -/
inductive PlayerEv where
  | setPlaying (b : Bool)
  | callback (slots : Nat)

/-- One step of the player. -/
def Song.step (host : Option Device) (s : Song) : PlayerEv → Song
  | .setPlaying b => Song.update host s b
  | .callback n => Song.stepCallback s n

/-- Run a sequence of player events. -/
def Song.run (host : Option Device) (s : Song) : List PlayerEv → Song
  | [] => s
  | e :: es => Song.run host (Song.step host s e) es

/-- `Song::from_file`: load the WAV from the music library, falling back
to an empty buffer at 44100 Hz when the load fails, prepare the audio data
through the cache, and build the `Song` with `current_frame = 0`. -/
def Song.from_file (host : Option Device) (mk : Nat → Nat → RubatoResampler) (fs : FS)
    (song_file_name : String) : Song × FS × List Ev :=
  let song_path := "music_library/" ++ song_file_name
  let loaded :=
    match Song.load_wav fs song_path with
    | some dr => dr
    | none => (([] : List ℚ), 44100)
  let r := Song.prepare_audio_data host mk fs song_file_name loaded.1 loaded.2
  ({ is_playing := false
     audio_stream := none
     audio_data := r.1.1
     current_frame := 0
     title := Song.get_title_from_file song_file_name
     filename := song_file_name
     final_sample_rate := r.1.2 }, r.2.1, r.2.2)

/-- The conditions under which `Song::play` opens no stream: no device, no
default output config, a non-`F32` default sample format, or failed stream
construction.  (A stream whose `play()` errors is still stored.) -/
def stream_open_fails (host : Option Device) : Bool :=
  match host with
  | none => true
  | some device =>
    match device.defaultConfig with
    | none => true
    | some cfg => !cfg.formatF32 || !device.buildStreamOk

/-- The cursor invariant: the stored `current_frame` field is `0`, and any
open stream was bound to a cursor starting at frame `0`. -/
def cursorInv (s : Song) : Prop :=
  s.current_frame = 0 ∧ ∀ st, s.audio_stream = some st → st.initialFrame = 0


/-! ### Concrete instances used by witnesses and counterexamples -/

/-- The empty filesystem. -/
def fsEmpty : FS := fun _ => none

/-- A fully working device whose supported-configs list is empty and whose
default output rate is 48000 Hz in `F32` format. -/
def okDevice : Option Device :=
  some { configsResult := some [], defaultConfig := some { rate := 48000, formatF32 := true },
         buildStreamOk := true, streamPlayOk := true }

/-- A trivial resampler instance: one frame per block, identity transfer. -/
def mkRes1 : Nat → Nat → RubatoResampler :=
  fun _ _ => { inputFrames := 1, process := fun chunk => chunk }

/-- A resampler instance producing, for each channel, the single sample
`1/2` per block — a value (like real FFT-resampler output) that is not on
the 16-bit PCM grid. -/
def mkHalf : Nat → Nat → RubatoResampler :=
  fun _ _ => { inputFrames := 1, process := fun _ => [[(1 : ℚ)/2], [(1 : ℚ)/2]] }

/-- A filesystem holding one undecodable (corrupt) file at the cache path
of `song.wav` at 44100 Hz. -/
def fsCorruptCache : FS :=
  fun p => if p = "music_cache/Song-44100Hz.wav" then some .corrupt else none

/-- A filesystem holding one well-formed 24-bit WAV file in the music
library: its header opens fine but its samples cannot be read as `i16`. -/
def fs24Bit : FS :=
  fun p => if p = "music_library/song.wav" then some (.wav 2 44100 24 [5]) else none

/-! ## Supporting lemmas -/

/-- The callback loop in closed form: slot `i` receives the buffer sample
at cursor position `count + i` (or `0` past the end), and the cursor ends
at `count + slots`. -/
theorem callback_fill_eq (audio_data : List ℚ) (count slots : Nat) :
    callback_fill audio_data count slots =
      ((List.range slots).map (fun i => audio_data.getD (count + i) 0), count + slots) := by
  induction slots generalizing count with
  | zero => simp [callback_fill]
  | succ n ih =>
    have hhead : (if h : count < audio_data.length then audio_data.get ⟨count, h⟩ else 0) =
        audio_data.getD count 0 := by
      by_cases h : count < audio_data.length
      · simp [List.getD_eq_getElem?_getD, List.getElem?_eq_getElem, h, List.get_eq_getElem]
      · simp only [List.getD_eq_getElem?_getD, List.getElem?_eq_none (Nat.le_of_not_lt h),
          Option.getD_none, dif_neg h]
    simp only [callback_fill, ih (count + 1), List.range_succ_eq_map, List.map_cons,
      List.map_map, hhead, Prod.mk.injEq, List.cons.injEq]
    refine ⟨⟨by simp, List.map_congr_left fun i _ => ?_⟩, by omega⟩
    have hidx : count + 1 + i = count + (i + 1) := by omega
    simp [Function.comp_def, Nat.succ_eq_add_one, hidx]

/-! ## Claim C2 -/

/-- C2: for a buffer of length `N`, every output slot the device callback
fills at a cursor position `≥ N` receives exactly `0.0` (the embedding is
total, so no out-of-bounds access occurs); the cursor is advanced by
exactly one per output slot (`count + slots` after `slots` slots); and a
callback invocation never closes the stream: the stream stays open at
end-of-track. -/
theorem callback_yields_silence_past_end (audio_data : List ℚ) (count slots i : Nat)
    (hi : i < slots) (hN : audio_data.length ≤ count + i) :
    (callback_fill audio_data count slots).1[i]? = some 0 ∧
    (callback_fill audio_data count slots).2 = count + slots ∧
    (callback_fill audio_data count slots).1.length = slots ∧
    (∀ s : Song, s.audio_stream.isSome → (Song.stepCallback s slots).audio_stream.isSome) := by
  refine ⟨?_, ?_, ?_, ?_⟩
  · rw [callback_fill_eq]
    simp only [List.getElem?_map, List.getElem?_range hi, Option.map_some]
    simp [List.getD_eq_getElem?_getD, List.getElem?_eq_none hN]
  · rw [callback_fill_eq]
  · rw [callback_fill_eq]; simp
  · intro s hs
    match h : s.audio_stream with
    | some st => simp [Song.stepCallback, h]
    | none => rw [h] at hs; simp at hs

/-- Witness for C2 at a concrete input: buffer `[7]` of length 1, cursor
starting at 0, a callback of 3 slots; slot 2 lies past the end and
receives `0`, and the cursor ends at 3. -/
theorem callback_yields_silence_past_end_witness :
    (callback_fill [(7 : ℚ)] 0 3).1[2]? = some 0 ∧
    (callback_fill [(7 : ℚ)] 0 3).2 = 0 + 3 ∧
    (callback_fill [(7 : ℚ)] 0 3).1.length = 3 :=
  ⟨(callback_yields_silence_past_end [7] 0 3 2 (by decide) (by decide)).1,
   (callback_yields_silence_past_end [7] 0 3 2 (by decide) (by decide)).2.1,
   (callback_yields_silence_past_end [7] 0 3 2 (by decide) (by decide)).2.2.1⟩

/-! ## Claim C3 -/

/-- Counterexample to C3 as stated: a device whose supported-configs query
errors (`configsResult = none`) but whose default output rate is 48000.
The claim predicts the fallback is the device's default rate (48000); the
code keeps the file's native rate 44100, never consulting the default
config in this branch. -/
theorem determine_rate_query_error_keeps_file_rate :
    (Song.determine_final_sample_rate
        (some { configsResult := none, defaultConfig := some { rate := 48000, formatF32 := true },
                buildStreamOk := true, streamPlayOk := true }) 44100).2 = 44100 ∧
    (44100 : Nat) ≠ 48000 := by
  exact ⟨rfl, by decide⟩

/-- C3 as amended: the target rate equals the file's native rate when that
rate lies within some supported range; when the configs query succeeds but
no range matches, it equals the device's default output rate if the
default-config query succeeds and stays the file rate if it fails; when
the supported-configuration query itself errors, or no device is present,
the target rate is the file's native rate (not the device default). -/
theorem determine_rate_characterization (device : Device) (file_rate : Nat) :
    (∀ configs, device.configsResult = some configs →
      (∃ c ∈ configs, c.minRate ≤ file_rate ∧ file_rate ≤ c.maxRate) →
      Song.determine_final_sample_rate (some device) file_rate = (true, file_rate)) ∧
    (∀ configs, device.configsResult = some configs →
      (¬∃ c ∈ configs, c.minRate ≤ file_rate ∧ file_rate ≤ c.maxRate) →
      ∀ cfg, device.defaultConfig = some cfg →
        Song.determine_final_sample_rate (some device) file_rate = (false, cfg.rate)) ∧
    (∀ configs, device.configsResult = some configs →
      (¬∃ c ∈ configs, c.minRate ≤ file_rate ∧ file_rate ≤ c.maxRate) →
      device.defaultConfig = none →
        Song.determine_final_sample_rate (some device) file_rate = (false, file_rate)) ∧
    (device.configsResult = none →
      Song.determine_final_sample_rate (some device) file_rate = (false, file_rate)) ∧
    Song.determine_final_sample_rate none file_rate = (false, file_rate) := by
  have hany : ∀ configs : List SupportedRange,
      (configs.any (fun config =>
        decide (config.minRate ≤ file_rate ∧ file_rate ≤ config.maxRate)) = true) ↔
      (∃ c ∈ configs, c.minRate ≤ file_rate ∧ file_rate ≤ c.maxRate) := by
    intro configs
    simp [List.any_eq_true]
  refine ⟨?_, ?_, ?_, ?_, rfl⟩
  · intro configs hc hex
    have htrue : configs.any (fun config =>
        decide (config.minRate ≤ file_rate ∧ file_rate ≤ config.maxRate)) = true :=
      (hany configs).mpr hex
    simp only [Song.determine_final_sample_rate, hc, htrue, if_true]
  · intro configs hc hnex cfg hcfg
    have hfalse : configs.any (fun config =>
        decide (config.minRate ≤ file_rate ∧ file_rate ≤ config.maxRate)) = false := by
      rw [← Bool.not_eq_true, hany configs]; exact hnex
    simp only [Song.determine_final_sample_rate, hc, hfalse, Bool.false_eq_true, if_false, hcfg]
  · intro configs hc hnex hcfg
    have hfalse : configs.any (fun config =>
        decide (config.minRate ≤ file_rate ∧ file_rate ≤ config.maxRate)) = false := by
      rw [← Bool.not_eq_true, hany configs]; exact hnex
    simp only [Song.determine_final_sample_rate, hc, hfalse, Bool.false_eq_true, if_false, hcfg]
  · intro hc
    simp [Song.determine_final_sample_rate, hc]

/-- Witness for C3 (amended) at concrete inputs: a device supporting
40000–48000 selects the file's native 44100; a device with an erroring
configs query keeps 44100. -/
theorem determine_rate_characterization_witness :
    Song.determine_final_sample_rate
      (some { configsResult := some [{ minRate := 40000, maxRate := 48000 }],
              defaultConfig := some { rate := 48000, formatF32 := true },
              buildStreamOk := true, streamPlayOk := true }) 44100 = (true, 44100) ∧
    Song.determine_final_sample_rate
      (some { configsResult := none, defaultConfig := some { rate := 48000, formatF32 := true },
              buildStreamOk := true, streamPlayOk := true }) 44100 = (false, 44100) :=
  ⟨(determine_rate_characterization _ 44100).1 _ rfl
      ⟨{ minRate := 40000, maxRate := 48000 }, by decide, by decide⟩,
   (determine_rate_characterization _ 44100).2.2.2.1 rfl⟩

/-! ## Claim C7 -/

/-- Counterexample to C7 as stated: with no output device available, a
`set-playing(true)` transition from the empty (stopped) song opens no
stream, but afterwards `is_playing()` reports `true`, not `false` —
`update` stores the requested state unconditionally after `play` fails. -/
theorem update_play_failure_reports_playing :
    (Song.update none Song.empty true).audio_stream = none ∧
    (Song.update none Song.empty true).is_playing = true :=
  ⟨rfl, rfl⟩

/-- C7 as amended: when opening the output stream fails during a
`set-playing(true)` transition (no device, no default config, unsupported
sample format, or stream construction failure), the Track is left with no
output stream open and otherwise unchanged — but `is_playing()` reports
`true`, not `false`, because `update` records the requested state
regardless of the failure; only a diagnostic is emitted. -/
theorem update_play_failure_leaves_no_stream (host : Option Device) (s : Song)
    (hstream : s.audio_stream = none) (hfail : stream_open_fails host = true) :
    Song.update host s true = { s with is_playing := true } ∧
    (Song.update host s true).audio_stream = none ∧
    (Song.update host s true).is_playing = true := by
  have hplay : Song.play host s = s := by
    unfold Song.play
    rw [hstream]
    simp only [Option.isSome_none, Bool.false_eq_true, if_false]
    cases host with
    | none => rfl
    | some device =>
      simp only [stream_open_fails] at hfail
      cases hdc : device.defaultConfig with
      | none => simp [hdc]
      | some cfg =>
        rw [hdc] at hfail
        simp only [Bool.or_eq_true, Bool.not_eq_true'] at hfail
        rcases hfail with hf | hb
        · simp [hdc, hf]
        · simp [hdc, hb]
  have hmain : Song.update host s true = { s with is_playing := true } := by
    unfold Song.update
    cases hp : s.is_playing
    · simp [hp, hplay]
    · simp [hp]
  refine ⟨hmain, ?_, ?_⟩
  · rw [hmain]; exact hstream
  · rw [hmain]

/-- Witness for C7 (amended): the concrete no-device failure from the
counterexample, via the amended theorem. -/
theorem update_play_failure_leaves_no_stream_witness :
    Song.update none Song.empty true = { Song.empty with is_playing := true } ∧
    (Song.update none Song.empty true).audio_stream = none ∧
    (Song.update none Song.empty true).is_playing = true :=
  update_play_failure_leaves_no_stream none Song.empty rfl rfl

/-! ## Claim C10 -/

/-- `Song::play` either leaves the state unchanged (stream already open,
or any failure to open one) or opens a stream bound to a fresh cursor
copied from `current_frame`. -/
theorem play_eq_cases (host : Option Device) (s : Song) :
    Song.play host s = s ∨
      Song.play host s = { s with
        audio_stream :=
          some ({ initialFrame := s.current_frame, frameCount := s.current_frame }) } := by
  unfold Song.play
  by_cases h2 : s.audio_stream.isSome
  · left; simp [h2]
  · simp only [h2, Bool.false_eq_true, if_false]
    rcases host with _ | ⟨cr, dc, bso, spo⟩
    · exact Or.inl rfl
    · rcases dc with _ | ⟨rate, fmt⟩
      · exact Or.inl rfl
      · cases fmt
        · exact Or.inl (by simp)
        · cases bso
          · exact Or.inl (by simp)
          · exact Or.inr (by simp)

/-- `play` preserves the cursor invariant. -/
theorem cursorInv_play (host : Option Device) (s : Song) (h : cursorInv s) :
    cursorInv (Song.play host s) := by
  rcases play_eq_cases host s with he | he <;> rw [he]
  · exact h
  · refine ⟨h.1, fun st hst => ?_⟩
    simp only [Option.some.injEq] at hst
    rw [← hst]
    exact h.1

/-- `pause` preserves the cursor invariant. -/
theorem cursorInv_pause (s : Song) (h : cursorInv s) : cursorInv (Song.pause s) := by
  refine ⟨h.1, ?_⟩
  simp [Song.pause]

/-- One player step preserves the cursor invariant: `update`/`play` bind a
fresh per-stream cursor copied from `current_frame`, `pause` drops the
stream, and a callback advances only the per-stream copy, never
`current_frame`. -/
theorem step_preserves_cursorInv (host : Option Device) (s : Song) (e : PlayerEv)
    (h : cursorInv s) : cursorInv (Song.step host s e) := by
  cases e with
  | setPlaying b =>
    have key : ∀ s1 : Song, cursorInv s1 → cursorInv { s1 with is_playing := b } :=
      fun s1 h1 => ⟨h1.1, h1.2⟩
    simp only [Song.step, Song.update]
    by_cases h1 : (b && !s.is_playing) = true
    · simp only [h1, if_true]
      exact key _ (cursorInv_play host s h)
    · simp only [h1, Bool.false_eq_true, if_false]
      by_cases h5 : (!b && s.is_playing) = true
      · simp only [h5, if_true]
        exact key _ (cursorInv_pause s h)
      · simp only [h5, Bool.false_eq_true, if_false]
        exact key _ h
  | callback n =>
    simp only [Song.step, Song.stepCallback]
    cases hs : s.audio_stream with
    | none => exact h
    | some st0 =>
      refine ⟨h.1, fun st hst => ?_⟩
      simp only [Option.some.injEq] at hst
      rw [← hst]
      exact h.2 st0 hs

/-- The invariant holds along any run. -/
theorem run_preserves_cursorInv (host : Option Device) (events : List PlayerEv)
    (s : Song) (h : cursorInv s) : cursorInv (Song.run host s events) := by
  induction events generalizing s with
  | nil => exact h
  | cons e es ih => exact ih _ (step_preserves_cursorInv host s e h)

/-- C10: pausing does not persist the playback position.  The Track's
stored `current_frame` is `0` at construction and stays `0` under every
sequence of play/pause transitions and device callbacks (the callback
increments only the fresh per-stream copy created at `play`); hence every
stream ever bound — including one opened after a pause — starts at frame
`0`, so playback restarts from the beginning of the buffer. -/
theorem pause_restarts_from_beginning (host : Option Device)
    (mk : Nat → Nat → RubatoResampler) (fs : FS) (song_file_name : String)
    (events : List PlayerEv) :
    (Song.from_file host mk fs song_file_name).1.current_frame = 0 ∧
    (Song.run host (Song.from_file host mk fs song_file_name).1 events).current_frame = 0 ∧
    ∀ st, (Song.run host (Song.from_file host mk fs song_file_name).1 events).audio_stream
        = some st → st.initialFrame = 0 := by
  have h0 : cursorInv (Song.from_file host mk fs song_file_name).1 := by
    constructor
    · rfl
    · intro st hst
      simp only [Song.from_file] at hst
      cases hst
  have hrun := run_preserves_cursorInv host events _ h0
  exact ⟨h0.1, hrun.1, hrun.2⟩

/-- Witness for C10: loading `song.wav` on a working device and pressing
play binds a stream whose cursor starts at frame `0`. -/
theorem pause_restarts_from_beginning_witness :
    (Song.run okDevice (Song.from_file okDevice mkRes1 fsEmpty "song.wav").1
        [PlayerEv.setPlaying true]).current_frame = 0 ∧
    ({ initialFrame := 0, frameCount := 0 } : StreamSt).initialFrame = 0 :=
  ⟨(pause_restarts_from_beginning okDevice mkRes1 fsEmpty "song.wav"
      [PlayerEv.setPlaying true]).2.1,
   (pause_restarts_from_beginning okDevice mkRes1 fsEmpty "song.wav"
      [PlayerEv.setPlaying true]).2.2 { initialFrame := 0, frameCount := 0 } (by decide)⟩

/-! ## Claim C9 -/

/-- C9: every block handed to the resampler by `resample_to_device_rate`
has one slice per channel, each slice holding exactly the resampler's
required input-frame count; slice position `i` of the block starting at
frame `start` carries the channel's sample at `start + i`, and every
position past the channel's true length carries the zero the block was
initialized with. -/
theorem resampler_blocks_exact_and_padded (R : RubatoResampler) (input : List ℚ)
    (channels : Nat) (b : List (List ℚ)) (hb : b ∈ blocksFed R input channels) :
    b.length = channels ∧
    ∀ s ∈ b, s.length = R.inputFrames ∧
      ∃ start channel, channel ∈ deinterleave channels input ∧
        (∀ i, i < R.inputFrames → s[i]? = some (channel.getD (start + i) 0)) ∧
        (∀ i, i < R.inputFrames → channel.length ≤ start + i → s[i]? = some 0) := by
  simp only [blocksFed, List.mem_map] at hb
  obtain ⟨start, hstart, hb⟩ := hb
  constructor
  · rw [← hb]
    simp [mkChunk, deinterleave]
  · intro s hs
    rw [← hb] at hs
    simp only [mkChunk, List.mem_map] at hs
    obtain ⟨channel, hchannel, hsdef⟩ := hs
    have hlen : s.length = R.inputFrames := by rw [← hsdef]; simp
    have hget : ∀ i, i < R.inputFrames → s[i]? = some (channel.getD (start + i) 0) := by
      intro i hi
      rw [← hsdef]
      simp [List.getElem?_range hi]
    refine ⟨hlen, start, channel, hchannel, hget, fun i hi hpast => ?_⟩
    rw [hget i hi]
    simp [List.getD_eq_getElem?_getD, List.getElem?_eq_none hpast]

/-- Witness for C9: two channels, input `[1, 2, 3]`, block size 2.  Channel
0 de-interleaves to `[1, 3]` and channel 1 to `[2]`; the single block is
`[[1, 3], [2, 0]]` — channel 1's slice is padded with a zero. -/
theorem resampler_blocks_exact_and_padded_witness :
    (([[1, 3], [2, 0]] : List (List ℚ)).length = 2) ∧
    (([2, 0] : List ℚ).length = ({ inputFrames := 2, process := fun c => c }
        : RubatoResampler).inputFrames) :=
  ⟨(resampler_blocks_exact_and_padded { inputFrames := 2, process := fun c => c }
      [1, 2, 3] 2 [[1, 3], [2, 0]] (by decide)).1,
   ((resampler_blocks_exact_and_padded { inputFrames := 2, process := fun c => c }
      [1, 2, 3] 2 [[1, 3], [2, 0]] (by decide)).2 [2, 0] (by decide)).1⟩

/-! ## Cache-manager lemmas -/

/-- Encoding a decoded 16-bit sample is the identity: the normalization
`i / 32767` followed by `* 32767` and truncation recovers `i` exactly. -/
theorem encodeSample_decodeSample (i : Int) (h1 : -32768 ≤ i) (h2 : i ≤ 32767) :
    encodeSample (decodeSample i) = i := by
  have h32 : (32767 : ℚ) ≠ 0 := by norm_num
  have hmul : decodeSample i * 32767 = (i : ℚ) := by
    unfold decodeSample
    field_simp
  unfold encodeSample
  rw [hmul]
  have htr : ratTrunc (i : ℚ) = i := by
    unfold ratTrunc
    rw [Rat.num_intCast, Rat.den_intCast]
    simp
  rw [htr]
  unfold i16Clamp
  omega

/-- Quantization is the identity on decoded 16-bit samples. -/
theorem quantizeSample_decodeSample (i : Int) (h1 : -32768 ≤ i) (h2 : i ≤ 32767) :
    quantizeSample (decodeSample i) = decodeSample i := by
  unfold quantizeSample
  rw [encodeSample_decodeSample i h1 h2]

/-- Reading back the file just saved yields the quantized samples and the
rate it was saved at. -/
theorem load_wav_save_wav (fs : FS) (path : String) (samples : List ℚ) (rate : Nat)
    (channels : Nat) :
    Song.load_wav (Song.save_wav fs path samples rate channels) path =
      some (samples.map quantizeSample, rate) := by
  simp only [Song.save_wav, Song.load_wav, FS.write, wavFileOf, if_pos rfl]
  simp [houndReadI16, quantizeSample, Function.comp_def]

/-- `load_wav` fails exactly on a missing file or an unreadable header. -/
theorem load_wav_eq_none_iff (fs : FS) (path : String) :
    Song.load_wav fs path = none ↔ (fs path = none ∨ fs path = some .corrupt) := by
  unfold Song.load_wav
  cases h : fs path with
  | none => simp
  | some c => cases c <;> simp

/-- The cache-miss tail: the returned rate is the final rate, the new
filesystem is the old one with exactly the cache file written (holding the
encoded returned samples), the effect log contains exactly one write, and
in the equal-rate branch the samples pass through unchanged with no
resampler invocation. -/
theorem processOriginal_spec (mk : Nat → Nat → RubatoResampler) (fs : FS)
    (cache_path : String) (raw_samples : List ℚ) (file_sample_rate final_rate : Nat) :
    (Song.processOriginal mk fs cache_path raw_samples file_sample_rate final_rate).1.2
        = final_rate ∧
    (Song.processOriginal mk fs cache_path raw_samples file_sample_rate final_rate).2.1
        = Song.save_wav fs cache_path
            (Song.processOriginal mk fs cache_path raw_samples file_sample_rate final_rate).1.1
            final_rate 2 ∧
    ((Song.processOriginal mk fs cache_path raw_samples file_sample_rate final_rate).2.2.filter
        Ev.isWrite).length = 1 ∧
    (file_sample_rate = final_rate →
      (Song.processOriginal mk fs cache_path raw_samples file_sample_rate final_rate).1.1
          = raw_samples ∧
      ∀ ev ∈ (Song.processOriginal mk fs cache_path raw_samples file_sample_rate final_rate).2.2,
        Ev.isResample ev = false) := by
  by_cases h : file_sample_rate ≠ final_rate
  · simp [Song.processOriginal, h, Song.resample_and_cache, Ev.isWrite, h]
  · push_neg at h
    simp [Song.processOriginal, h, Ev.isWrite, Ev.isResample]

/-- `prepare_audio_data` when no cache file exists: it is the miss tail. -/
theorem prepare_eq_of_miss (host : Option Device) (mk : Nat → Nat → RubatoResampler)
    (fs : FS) (song_file_name : String) (raw_samples : List ℚ) (file_sample_rate : Nat)
    (h : fs (cachePathFor song_file_name
        (Song.determine_final_sample_rate host file_sample_rate).2) = none) :
    Song.prepare_audio_data host mk fs song_file_name raw_samples file_sample_rate =
      Song.processOriginal mk fs
        (cachePathFor song_file_name
          (Song.determine_final_sample_rate host file_sample_rate).2)
        raw_samples file_sample_rate
        (Song.determine_final_sample_rate host file_sample_rate).2 := by
  unfold Song.prepare_audio_data
  simp only [h, Option.isSome_none, Bool.false_eq_true, if_false]

/-- `prepare_audio_data` on a decodable cache file: return its samples at
the final rate, with no filesystem change and no effects. -/
theorem prepare_eq_of_hit (host : Option Device) (mk : Nat → Nat → RubatoResampler)
    (fs : FS) (song_file_name : String) (raw_samples : List ℚ) (file_sample_rate : Nat)
    (cached : List ℚ × Nat)
    (h : Song.load_wav fs (cachePathFor song_file_name
        (Song.determine_final_sample_rate host file_sample_rate).2) = some cached) :
    Song.prepare_audio_data host mk fs song_file_name raw_samples file_sample_rate =
      ((cached.1, (Song.determine_final_sample_rate host file_sample_rate).2), fs, []) := by
  have hex : (fs (cachePathFor song_file_name
      (Song.determine_final_sample_rate host file_sample_rate).2)).isSome = true := by
    rcases hfs : fs (cachePathFor song_file_name
        (Song.determine_final_sample_rate host file_sample_rate).2) with _ | c
    · rw [(load_wav_eq_none_iff fs _).mpr (Or.inl hfs)] at h
      cases h
    · rfl
  unfold Song.prepare_audio_data
  simp only [hex, h, if_true]

/-- `prepare_audio_data` on an existing but undecodable cache file: fall
through to the miss tail, exactly as the code does after logging. -/
theorem prepare_eq_of_corrupt (host : Option Device) (mk : Nat → Nat → RubatoResampler)
    (fs : FS) (song_file_name : String) (raw_samples : List ℚ) (file_sample_rate : Nat)
    (c : FileContent)
    (hex : fs (cachePathFor song_file_name
        (Song.determine_final_sample_rate host file_sample_rate).2) = some c)
    (hload : Song.load_wav fs (cachePathFor song_file_name
        (Song.determine_final_sample_rate host file_sample_rate).2) = none) :
    Song.prepare_audio_data host mk fs song_file_name raw_samples file_sample_rate =
      Song.processOriginal mk fs
        (cachePathFor song_file_name
          (Song.determine_final_sample_rate host file_sample_rate).2)
        raw_samples file_sample_rate
        (Song.determine_final_sample_rate host file_sample_rate).2 := by
  unfold Song.prepare_audio_data
  simp only [hex, hload, Option.isSome_some, if_true]

/-! ## Claim C4 -/

/-- Counterexample to C4 as stated: when the cache file exists but fails
to decode, `prepare_audio_data` falls through and overwrites it.  Here the
cache path of `song.wav` at 44100 Hz holds a corrupt file; after the call
it holds a fresh WAV file instead — an overwrite of an existing cache
entry. -/
theorem prepare_overwrites_undecodable_cache :
    fsCorruptCache "music_cache/Song-44100Hz.wav" = some FileContent.corrupt ∧
    (Song.prepare_audio_data none mkRes1 fsCorruptCache "song.wav" [] 44100).2.1
        "music_cache/Song-44100Hz.wav" = some (wavFileOf [] 44100 2) ∧
    wavFileOf [] 44100 2 ≠ FileContent.corrupt := by
  refine ⟨rfl, ?_, by decide⟩
  decide

/-- C4 as amended: every call of `prepare_audio_data` writes exactly zero
or one file; it never deletes any file; and it never overwrites an
existing file **except** the cache file in the one case where that file
exists but fails to decode (a decodable existing cache file is returned
without any write, so existence-plus-decodability is the cache-hit
signal). -/
theorem prepare_cache_write_discipline (host : Option Device)
    (mk : Nat → Nat → RubatoResampler) (fs : FS) (song_file_name : String)
    (raw_samples : List ℚ) (file_sample_rate : Nat) :
    ((Song.prepare_audio_data host mk fs song_file_name raw_samples file_sample_rate).2.2.filter
        Ev.isWrite).length ≤ 1 ∧
    (∀ p c, fs p = some c →
      ∃ c2, (Song.prepare_audio_data host mk fs song_file_name raw_samples file_sample_rate).2.1 p
          = some c2) ∧
    (∀ p c, fs p = some c →
      (Song.prepare_audio_data host mk fs song_file_name raw_samples file_sample_rate).2.1 p
          ≠ some c →
      p = cachePathFor song_file_name
            (Song.determine_final_sample_rate host file_sample_rate).2 ∧
        c = FileContent.corrupt) := by
  have hwrite : ∀ (fs2 : FS) (path : String) (samples : List ℚ) (rate ch : Nat) (p : String),
      Song.save_wav fs2 path samples rate ch p =
        if p = path then some (wavFileOf samples rate ch) else fs2 p :=
    fun _ _ _ _ _ _ => rfl
  rcases hfs : fs (cachePathFor song_file_name
      (Song.determine_final_sample_rate host file_sample_rate).2) with _ | c0
  · have hp := prepare_eq_of_miss host mk fs song_file_name raw_samples file_sample_rate hfs
    have hspec := processOriginal_spec mk fs (cachePathFor song_file_name
      (Song.determine_final_sample_rate host file_sample_rate).2) raw_samples file_sample_rate
      (Song.determine_final_sample_rate host file_sample_rate).2
    rw [hp]
    refine ⟨le_of_eq hspec.2.2.1, ?_, ?_⟩
    · intro p c hc
      rw [hspec.2.1, hwrite]
      by_cases hpe : p = cachePathFor song_file_name
          (Song.determine_final_sample_rate host file_sample_rate).2
      · exact ⟨_, by rw [if_pos hpe]⟩
      · exact ⟨c, by rw [if_neg hpe]; exact hc⟩
    · intro p c hc hne
      by_cases hpe : p = cachePathFor song_file_name
          (Song.determine_final_sample_rate host file_sample_rate).2
      · rw [hpe] at hc
        rw [hfs] at hc
        cases hc
      · exact absurd (by rw [hspec.2.1, hwrite, if_neg hpe]; exact hc) hne
  · cases hload : Song.load_wav fs (cachePathFor song_file_name
        (Song.determine_final_sample_rate host file_sample_rate).2) with
    | some cached =>
      have hp := prepare_eq_of_hit host mk fs song_file_name raw_samples file_sample_rate
        cached hload
      rw [hp]
      exact ⟨by simp, fun p c hc => ⟨c, hc⟩, fun p c hc hne => absurd hc hne⟩
    | none =>
      have hp := prepare_eq_of_corrupt host mk fs song_file_name raw_samples file_sample_rate
        c0 hfs hload
      have hspec := processOriginal_spec mk fs (cachePathFor song_file_name
        (Song.determine_final_sample_rate host file_sample_rate).2) raw_samples file_sample_rate
        (Song.determine_final_sample_rate host file_sample_rate).2
      rw [hp]
      refine ⟨le_of_eq hspec.2.2.1, ?_, ?_⟩
      · intro p c hc
        rw [hspec.2.1, hwrite]
        by_cases hpe : p = cachePathFor song_file_name
            (Song.determine_final_sample_rate host file_sample_rate).2
        · exact ⟨_, by rw [if_pos hpe]⟩
        · exact ⟨c, by rw [if_neg hpe]; exact hc⟩
      · intro p c hc hne
        by_cases hpe : p = cachePathFor song_file_name
            (Song.determine_final_sample_rate host file_sample_rate).2
        · refine ⟨hpe, ?_⟩
          rw [hpe] at hc
          rw [hfs] at hc
          rcases (load_wav_eq_none_iff fs _).mp hload with h1 | h1
          · rw [hfs] at h1; cases h1
          · rw [hfs] at h1
            cases h1
            cases hc
            rfl
        · exact absurd (by rw [hspec.2.1, hwrite, if_neg hpe]; exact hc) hne

/-- Witness for C4 (amended): at most one file is written, and the file
present at the cache path beforehand is still present (not deleted)
afterwards. -/
theorem prepare_cache_write_discipline_witness :
    ((Song.prepare_audio_data none mkRes1 fsEmpty "song.wav" [] 44100).2.2.filter
        Ev.isWrite).length ≤ 1 ∧
    (∃ c2, (Song.prepare_audio_data none mkRes1 fsCorruptCache "song.wav" [] 44100).2.1
        "music_cache/Song-44100Hz.wav" = some c2) :=
  ⟨(prepare_cache_write_discipline none mkRes1 fsEmpty "song.wav" [] 44100).1,
   (prepare_cache_write_discipline none mkRes1 fsCorruptCache "song.wav" [] 44100).2.1
     "music_cache/Song-44100Hz.wav" FileContent.corrupt rfl⟩

/-! ## Claim C5 -/

/-- C5: when the source rate equals the chosen target rate, the resampling
engine is never invoked (on any filesystem, hit or miss); and on a cache
miss the source samples are persisted to the cache unchanged and returned
unchanged — the cache file then holds exactly the encoded source samples,
reading it back yields the samples' 16-bit quantization (the samples
themselves whenever they came from a 16-bit decode), and when the source
samples are the decode of stored 16-bit values `src`, the cache file's
stored sample content equals `src` exactly. -/
theorem equal_rate_skips_resampler (host : Option Device)
    (mk : Nat → Nat → RubatoResampler) (fs : FS) (song_file_name : String)
    (raw_samples : List ℚ) (file_sample_rate : Nat)
    (heq : (Song.determine_final_sample_rate host file_sample_rate).2 = file_sample_rate) :
    (∀ ev ∈ (Song.prepare_audio_data host mk fs song_file_name raw_samples
        file_sample_rate).2.2, Ev.isResample ev = false) ∧
    (fs (cachePathFor song_file_name file_sample_rate) = none →
      (Song.prepare_audio_data host mk fs song_file_name raw_samples
          file_sample_rate).1.1 = raw_samples ∧
      (Song.prepare_audio_data host mk fs song_file_name raw_samples
          file_sample_rate).2.1 (cachePathFor song_file_name file_sample_rate) =
        some (wavFileOf raw_samples file_sample_rate 2) ∧
      Song.load_wav (Song.prepare_audio_data host mk fs song_file_name raw_samples
          file_sample_rate).2.1 (cachePathFor song_file_name file_sample_rate) =
        some (raw_samples.map quantizeSample, file_sample_rate) ∧
      (∀ src : List Int, raw_samples = src.map decodeSample →
        (∀ i ∈ src, -32768 ≤ i ∧ i ≤ 32767) →
        wavFileOf raw_samples file_sample_rate 2 = FileContent.wav 2 file_sample_rate 16 src)) := by
  constructor
  · rcases hfs : fs (cachePathFor song_file_name
        (Song.determine_final_sample_rate host file_sample_rate).2) with _ | c0
    · have hp := prepare_eq_of_miss host mk fs song_file_name raw_samples file_sample_rate hfs
      rw [hp]
      exact (processOriginal_spec mk fs _ raw_samples file_sample_rate _).2.2.2 heq.symm |>.2
    · cases hload : Song.load_wav fs (cachePathFor song_file_name
          (Song.determine_final_sample_rate host file_sample_rate).2) with
      | some cached =>
        rw [prepare_eq_of_hit host mk fs song_file_name raw_samples file_sample_rate
          cached hload]
        intro ev hev
        cases hev
      | none =>
        rw [prepare_eq_of_corrupt host mk fs song_file_name raw_samples file_sample_rate
          c0 hfs hload]
        exact (processOriginal_spec mk fs _ raw_samples file_sample_rate _).2.2.2 heq.symm |>.2
  · intro hmiss
    have hfs : fs (cachePathFor song_file_name
        (Song.determine_final_sample_rate host file_sample_rate).2) = none := by
      rw [heq]; exact hmiss
    have hp := prepare_eq_of_miss host mk fs song_file_name raw_samples file_sample_rate hfs
    have hspec := processOriginal_spec mk fs (cachePathFor song_file_name
      (Song.determine_final_sample_rate host file_sample_rate).2) raw_samples file_sample_rate
      (Song.determine_final_sample_rate host file_sample_rate).2
    have hout : (Song.processOriginal mk fs (cachePathFor song_file_name
        (Song.determine_final_sample_rate host file_sample_rate).2) raw_samples
        file_sample_rate (Song.determine_final_sample_rate host file_sample_rate).2).1.1
        = raw_samples := (hspec.2.2.2 heq.symm).1
    have hcp : cachePathFor song_file_name
        (Song.determine_final_sample_rate host file_sample_rate).2 =
        cachePathFor song_file_name file_sample_rate := by rw [heq]
    refine ⟨?_, ?_, ?_, ?_⟩
    · rw [hp, hout]
    · rw [hp, ← hcp, hspec.2.1, hout, heq]
      simp [Song.save_wav, FS.write]
    · rw [hp, ← hcp, hspec.2.1, hout, heq]
      exact load_wav_save_wav fs _ raw_samples file_sample_rate 2
    · intro src hsrc hbound
      unfold wavFileOf
      rw [hsrc, List.map_map]
      have : src.map (encodeSample ∘ decodeSample) = src.map id := by
        refine List.map_congr_left fun i hi => ?_
        exact encodeSample_decodeSample i (hbound i hi).1 (hbound i hi).2
      rw [this, List.map_id]

/-- Witness for C5: `song.wav` with one decoded sample `5/32767` on the
empty filesystem and no device (final rate = native 44100): the sample
passes through unchanged and the cache file stores exactly `[5]`. -/
theorem equal_rate_skips_resampler_witness :
    (Song.prepare_audio_data none mkRes1 fsEmpty "song.wav" [decodeSample 5] 44100).1.1
        = [decodeSample 5] ∧
    wavFileOf [decodeSample 5] 44100 2 = FileContent.wav 2 44100 16 [5] :=
  ⟨((equal_rate_skips_resampler none mkRes1 fsEmpty "song.wav" [decodeSample 5] 44100
      rfl).2 rfl).1,
   ((equal_rate_skips_resampler none mkRes1 fsEmpty "song.wav" [decodeSample 5] 44100
      rfl).2 rfl).2.2.2 [5] rfl (by decide)⟩

/-! ## Claim C1 -/

/-- Counterexample to C1 as stated: with a device forcing resampling from
44100 Hz to 48000 Hz and a resampler block producing the sample `1/2`
(not on the 16-bit grid), the first call returns the resampler output
while the second call returns the cache file's 16-bit re-decode — the two
are not byte-identical. -/
theorem cache_second_call_differs :
    (Song.prepare_audio_data okDevice mkHalf
        ((Song.prepare_audio_data okDevice mkHalf fsEmpty "song.wav" [0, 0] 44100).2.1)
        "song.wav" [0, 0] 44100).1.1 ≠
      (Song.prepare_audio_data okDevice mkHalf fsEmpty "song.wav" [0, 0] 44100).1.1 := by
  with_unfolding_all decide

/-- C1 as amended: starting from a filesystem with no cache entry, a
second `prepare_audio_data` call returns the 16-bit-PCM quantization of
the first call's result (hence byte-identical content whenever the first
call's samples are already exactly representable in 16-bit PCM — in
particular whenever no resampling occurred), at the same rate, and
performs no effect at all: no additional cache file is written after the
first call created the entry. -/
theorem cache_second_call_returns_quantized (host : Option Device)
    (mk : Nat → Nat → RubatoResampler) (fs : FS) (song_file_name : String)
    (raw_samples : List ℚ) (file_sample_rate : Nat)
    (hmiss : fs (cachePathFor song_file_name
        (Song.determine_final_sample_rate host file_sample_rate).2) = none) :
    (Song.prepare_audio_data host mk
        (Song.prepare_audio_data host mk fs song_file_name raw_samples
          file_sample_rate).2.1 song_file_name raw_samples file_sample_rate).1.1 =
      (Song.prepare_audio_data host mk fs song_file_name raw_samples
        file_sample_rate).1.1.map quantizeSample ∧
    (Song.prepare_audio_data host mk
        (Song.prepare_audio_data host mk fs song_file_name raw_samples
          file_sample_rate).2.1 song_file_name raw_samples file_sample_rate).1.2 =
      (Song.prepare_audio_data host mk fs song_file_name raw_samples
        file_sample_rate).1.2 ∧
    (Song.prepare_audio_data host mk
        (Song.prepare_audio_data host mk fs song_file_name raw_samples
          file_sample_rate).2.1 song_file_name raw_samples file_sample_rate).2.2 = [] ∧
    ((∀ q ∈ (Song.prepare_audio_data host mk fs song_file_name raw_samples
          file_sample_rate).1.1, quantizeSample q = q) →
      (Song.prepare_audio_data host mk
          (Song.prepare_audio_data host mk fs song_file_name raw_samples
            file_sample_rate).2.1 song_file_name raw_samples file_sample_rate).1.1 =
        (Song.prepare_audio_data host mk fs song_file_name raw_samples
          file_sample_rate).1.1) := by
  have hp1 := prepare_eq_of_miss host mk fs song_file_name raw_samples file_sample_rate hmiss
  have hspec := processOriginal_spec mk fs (cachePathFor song_file_name
    (Song.determine_final_sample_rate host file_sample_rate).2) raw_samples file_sample_rate
    (Song.determine_final_sample_rate host file_sample_rate).2
  have hsave : (Song.prepare_audio_data host mk fs song_file_name raw_samples
      file_sample_rate).2.1 =
      Song.save_wav fs (cachePathFor song_file_name
        (Song.determine_final_sample_rate host file_sample_rate).2)
        (Song.prepare_audio_data host mk fs song_file_name raw_samples
          file_sample_rate).1.1
        (Song.determine_final_sample_rate host file_sample_rate).2 2 := by
    rw [hp1]
    exact hspec.2.1
  have hrate1 : (Song.prepare_audio_data host mk fs song_file_name raw_samples
      file_sample_rate).1.2 = (Song.determine_final_sample_rate host file_sample_rate).2 := by
    rw [hp1]
    exact hspec.1
  have hload2 : Song.load_wav (Song.prepare_audio_data host mk fs song_file_name raw_samples
      file_sample_rate).2.1 (cachePathFor song_file_name
        (Song.determine_final_sample_rate host file_sample_rate).2) =
      some ((Song.prepare_audio_data host mk fs song_file_name raw_samples
        file_sample_rate).1.1.map quantizeSample,
        (Song.determine_final_sample_rate host file_sample_rate).2) := by
    rw [hsave]
    exact load_wav_save_wav fs _ _ _ 2
  have hp2 := prepare_eq_of_hit host mk
    (Song.prepare_audio_data host mk fs song_file_name raw_samples file_sample_rate).2.1
    song_file_name raw_samples file_sample_rate
    ((Song.prepare_audio_data host mk fs song_file_name raw_samples
        file_sample_rate).1.1.map quantizeSample,
      (Song.determine_final_sample_rate host file_sample_rate).2) hload2
  rw [hp2]
  refine ⟨rfl, hrate1.symm, rfl, fun hfix => ?_⟩
  have : (Song.prepare_audio_data host mk fs song_file_name raw_samples
      file_sample_rate).1.1.map quantizeSample =
      (Song.prepare_audio_data host mk fs song_file_name raw_samples
        file_sample_rate).1.1.map id :=
    List.map_congr_left fun q hq => hfix q hq
  rw [this, List.map_id]

/-- Witness for C1 (amended): no device, empty filesystem, empty sample
list — the second call returns exactly the first call's (empty) result and
performs no effects. -/
theorem cache_second_call_returns_quantized_witness :
    (Song.prepare_audio_data none mkRes1
        ((Song.prepare_audio_data none mkRes1 fsEmpty "song.wav" [] 44100).2.1)
        "song.wav" [] 44100).2.2 = [] ∧
    (Song.prepare_audio_data none mkRes1
        ((Song.prepare_audio_data none mkRes1 fsEmpty "song.wav" [] 44100).2.1)
        "song.wav" [] 44100).1.1 =
      (Song.prepare_audio_data none mkRes1 fsEmpty "song.wav" [] 44100).1.1 :=
  ⟨(cache_second_call_returns_quantized none mkRes1 fsEmpty "song.wav" [] 44100 rfl).2.2.1,
   (cache_second_call_returns_quantized none mkRes1 fsEmpty "song.wav" [] 44100 rfl).2.2.2
     (by decide)⟩

/-! ## Claim C6 -/

/-- Counterexample to C6 as stated: a well-formed 24-bit WAV file is an
unsupported bit depth for this 16-bit pipeline, yet `load_wav` does not
fail — `hound`'s per-sample errors are swallowed by `unwrap_or(0)`, so the
file decodes to zeroed samples instead of a `DecodeError`. -/
theorem load_wav_24bit_not_error :
    Song.load_wav fs24Bit "music_library/song.wav" = some ([0], 44100) ∧
    ¬(24 ≤ 16) := by
  constructor
  · unfold Song.load_wav fs24Bit
    rw [if_pos rfl]
    simp [houndReadI16, decodeSample]
  · decide

/-- `(0 .. 0).step_by(k)` is empty. -/
theorem stepBy_zero (step : Nat) : stepBy 0 step = [] := by
  unfold stepBy
  by_cases h : step = 0
  · simp [h]
  · simp [h, Nat.div_eq_of_lt (by omega : step - 1 < step)]

/-- De-interleaving an empty buffer gives every channel an empty list. -/
theorem deinterleave_nil (channels : Nat) :
    deinterleave channels [] = List.replicate channels [] := by
  unfold deinterleave
  simp [List.map_const]

/-- Resampling an empty buffer yields an empty buffer, for any resampler. -/
theorem resample_nil (mk : Nat → Nat → RubatoResampler) (from_rate to_rate channels : Nat) :
    Song.resample_to_device_rate mk [] from_rate to_rate channels = [] := by
  have h1 : blocksFed (mk from_rate to_rate) [] channels = [] := by
    unfold blocksFed
    rw [deinterleave_nil]
    cases channels with
    | zero => simp [stepBy_zero]
    | succ n => simp [stepBy_zero, List.replicate_succ]
  unfold Song.resample_to_device_rate interleave
  simp only [h1, List.map_nil, List.flatten_nil]
  cases channels with
  | zero => simp
  | succ n => simp [List.map_const, List.replicate_succ]

/-- The miss tail on an empty sample list returns an empty sample list. -/
theorem processOriginal_nil (mk : Nat → Nat → RubatoResampler) (fs : FS)
    (cache_path : String) (file_sample_rate final_rate : Nat) :
    (Song.processOriginal mk fs cache_path [] file_sample_rate final_rate).1.1 = [] := by
  unfold Song.processOriginal
  by_cases h : file_sample_rate ≠ final_rate
  · simp [h, Song.resample_and_cache, resample_nil]
  · simp [h]

/-- C6 as amended: `load_wav` fails exactly when the file is missing or
its header is malformed; an unsupported bit depth does **not** fail — each
unreadable sample is replaced by `0`.  On a load failure, `from_file`
substitutes the fallback pair (empty buffer, 44100 Hz) and proceeds
through cache preparation rather than aborting; when additionally no cache
entry exists, the resulting track's buffer is empty. -/
theorem load_wav_failure_fallback (host : Option Device)
    (mk : Nat → Nat → RubatoResampler) (fs : FS) (song_file_name : String) :
    (Song.load_wav fs ("music_library/" ++ song_file_name) = none ↔
      (fs ("music_library/" ++ song_file_name) = none ∨
        fs ("music_library/" ++ song_file_name) = some FileContent.corrupt)) ∧
    (Song.load_wav fs ("music_library/" ++ song_file_name) = none →
      (Song.from_file host mk fs song_file_name).1.audio_data =
          (Song.prepare_audio_data host mk fs song_file_name [] 44100).1.1 ∧
      (Song.from_file host mk fs song_file_name).1.final_sample_rate =
          (Song.prepare_audio_data host mk fs song_file_name [] 44100).1.2 ∧
      (fs (cachePathFor song_file_name
          (Song.determine_final_sample_rate host 44100).2) = none →
        (Song.from_file host mk fs song_file_name).1.audio_data = [])) := by
  refine ⟨load_wav_eq_none_iff fs _, fun hfail => ?_⟩
  have heq : ∀ (h2 : Option Device) (m2 : Nat → Nat → RubatoResampler),
      (Song.from_file h2 m2 fs song_file_name).1.audio_data =
        (Song.prepare_audio_data h2 m2 fs song_file_name [] 44100).1.1 ∧
      (Song.from_file h2 m2 fs song_file_name).1.final_sample_rate =
        (Song.prepare_audio_data h2 m2 fs song_file_name [] 44100).1.2 := by
    intro h2 m2
    simp only [Song.from_file, hfail]
    exact ⟨trivial, trivial⟩
  refine ⟨(heq host mk).1, (heq host mk).2, fun hmiss => ?_⟩
  rw [(heq host mk).1,
    prepare_eq_of_miss host mk fs song_file_name [] 44100 hmiss]
  exact processOriginal_nil mk fs _ 44100 _

/-- Witness for C6 (amended): on the empty filesystem the library file is
missing, `load_wav` fails, and the constructed track's buffer is empty. -/
theorem load_wav_failure_fallback_witness :
    (Song.load_wav fsEmpty ("music_library/" ++ "song.wav") = none) ∧
    (Song.from_file none mkRes1 fsEmpty "song.wav").1.audio_data = [] :=
  ⟨((load_wav_failure_fallback none mkRes1 fsEmpty "song.wav").1).mpr (Or.inl rfl),
   ((load_wav_failure_fallback none mkRes1 fsEmpty "song.wav").2 rfl).2.2 rfl⟩

/-! ## Claim C8 -/

/-- Facts about a lowercase ASCII letter needed for the round-trip:
capitalizing then lowercasing recovers it, lowercasing fixes it, and it is
none of the separator characters. -/
theorem lower_char_facts (c : Char) (h : c ∈ lowercaseAscii) :
    Char.toLower (Char.toUpper c) = c ∧ Char.toLower c = c ∧ c.isWhitespace = false ∧
    (Char.toUpper c).isWhitespace = false ∧ c ≠ '-' ∧ c ≠ '.' := by
  fin_cases h <;> exact ⟨rfl, rfl, rfl, rfl, by decide, by decide⟩

/-- A character of a joined list lies in the separator or in some part. -/
theorem mem_joinSep (sep : List Char) : ∀ (ws : List (List Char)) (x : Char),
    x ∈ joinSep sep ws → x ∈ sep ∨ ∃ w ∈ ws, x ∈ w := by
  intro ws
  induction ws with
  | nil => intro x hx; simp [joinSep] at hx
  | cons w ws ih =>
    intro x hx
    cases ws with
    | nil =>
      exact Or.inr ⟨w, List.mem_cons_self w [], by simpa [joinSep] using hx⟩
    | cons v vs =>
      rw [show joinSep sep (w :: v :: vs) = w ++ sep ++ joinSep sep (v :: vs) from rfl] at hx
      rcases List.mem_append.mp hx with h1 | h2
      · rcases List.mem_append.mp h1 with ha | hb
        · exact Or.inr ⟨w, List.mem_cons_self w _, ha⟩
        · exact Or.inl hb
      · rcases ih x h2 with ha | ⟨u, hu, hxu⟩
        · exact Or.inl ha
        · exact Or.inr ⟨u, List.mem_cons_of_mem _ hu, hxu⟩

/-- `joinSep` is `List.intercalate`. -/
theorem joinSep_eq_intercalate (sep : List Char) : ∀ ws : List (List Char),
    joinSep sep ws = List.intercalate sep ws := by
  intro ws
  induction ws with
  | nil => rfl
  | cons w ws ih =>
    cases ws with
    | nil => simp [joinSep, List.intercalate]
    | cons v vs =>
      rw [show joinSep sep (w :: v :: vs) = w ++ sep ++ joinSep sep (v :: vs) from rfl, ih]
      simp only [List.intercalate, List.intersperse_cons_cons, List.flatten_cons,
        List.append_assoc]

/-- Splitting a joined list on a separator character recovers the parts,
provided no part contains a character satisfying the split predicate. -/
theorem splitOnP_joinSep (p : Char → Bool) (sep : Char) (hsep : p sep = true) :
    ∀ ws : List (List Char), ws ≠ [] → (∀ w ∈ ws, ∀ c ∈ w, p c = false) →
      (joinSep [sep] ws).splitOnP p = ws := by
  intro ws
  induction ws with
  | nil => intro h; cases h rfl
  | cons w ws ih =>
    intro _ hw
    cases ws with
    | nil =>
      refine List.splitOnP_eq_single p w fun x hx => ?_
      rw [hw w (List.mem_cons_self w []) x hx]
      simp
    | cons v vs =>
      have hjoin : joinSep [sep] (w :: v :: vs) = w ++ sep :: joinSep [sep] (v :: vs) := by
        rw [show joinSep [sep] (w :: v :: vs) = w ++ [sep] ++ joinSep [sep] (v :: vs) from rfl]
        simp
      rw [hjoin, List.splitOnP_first p w
        (fun x hx => by rw [hw w (List.mem_cons_self w _) x hx]; simp) sep hsep]
      rw [ih List.noConfusion fun u hu c hc => hw u (List.mem_cons_of_mem _ hu) c hc]

/-- `split_whitespace` recovers the words of a space-joined list of
nonempty whitespace-free words. -/
theorem splitWhitespaceChars_joinSep (ws : List (List Char)) (hne : ws ≠ [])
    (hw : ∀ w ∈ ws, w ≠ [] ∧ ∀ c ∈ w, c.isWhitespace = false) :
    splitWhitespaceChars (joinSep [' '] ws) = ws := by
  unfold splitWhitespaceChars
  rw [splitOnP_joinSep (fun c => c.isWhitespace) ' ' (by decide) ws hne
    (fun w hw2 c hc => (hw w hw2).2 c hc)]
  rw [List.filter_eq_self.mpr]
  intro w hw2
  have := (hw w hw2).1
  simp [List.isEmpty_iff, this]

/-- Capitalizing then fully lowercasing a lowercase-ASCII word is the
identity. -/
theorem lower_capitalize (w : List Char) (hw : ∀ c ∈ w, c ∈ lowercaseAscii) :
    (capitalizeWord w).map Char.toLower = w := by
  cases w with
  | nil => rfl
  | cons c rest =>
    show Char.toLower c.toUpper :: rest.map Char.toLower = c :: rest
    rw [(lower_char_facts c (hw c (List.mem_cons_self c rest))).1]
    congr 1
    have : rest.map Char.toLower = rest.map id :=
      List.map_congr_left fun x hx =>
        (lower_char_facts x (hw x (List.mem_cons_of_mem c hx))).2.1
    rw [this, List.map_id]

/-- Stripping the extension at the last dot of `base ++ ".wav"` recovers
`base` when `base` contains no dot. -/
theorem truncAtLastDot_wav (base : List Char) :
    truncAtLastDot (base ++ ".wav".toList) = base := by
  unfold truncAtLastDot
  rw [if_pos (List.mem_append.mpr (Or.inr (by decide)))]
  rw [List.reverse_append, show (".wav".toList).reverse = ['v', 'a', 'w', '.'] from rfl]
  have hstep : List.dropWhile (fun c => c ≠ '.') (['v', 'a', 'w', '.'] ++ base.reverse) =
      '.' :: base.reverse := by
    simp [List.dropWhile]
  rw [hstep]
  simp

/-- C8: the title/filename mapping round-trips on every filename composed
of (one or more) nonempty lowercase-ASCII hyphen-separated words followed
by `".wav"`: `get_file_from_title (get_title_from_file f) = f`. -/
theorem title_filename_roundtrip (ws : List (List Char)) (hne : ws ≠ [])
    (hw : ∀ w ∈ ws, w ≠ [] ∧ ∀ c ∈ w, c ∈ lowercaseAscii) :
    Song.get_file_from_title (Song.get_title_from_file ⟨joinSep ['-'] ws ++ ".wav".toList⟩) =
      ⟨joinSep ['-'] ws ++ ".wav".toList⟩ := by
  have hsplit : (joinSep ['-'] ws).splitOn '-' = ws := by
    rw [joinSep_eq_intercalate]
    refine List.splitOn_intercalate ws '-' (fun l hl hmem => ?_) hne
    exact absurd rfl (lower_char_facts '-' ((hw l hl).2 '-' hmem)).2.2.2.2.1
  have htitle : Song.get_title_from_file ⟨joinSep ['-'] ws ++ ".wav".toList⟩ =
      ⟨joinSep [' '] (ws.map capitalizeWord)⟩ := by
    unfold Song.get_title_from_file
    rw [show String.toList ⟨joinSep ['-'] ws ++ ".wav".toList⟩ =
        joinSep ['-'] ws ++ ".wav".toList from rfl]
    rw [truncAtLastDot_wav, hsplit]
  rw [htitle]
  unfold Song.get_file_from_title
  have hsplitws : splitWhitespaceChars
      (String.toList ⟨joinSep [' '] (ws.map capitalizeWord)⟩) = ws.map capitalizeWord := by
    rw [show String.toList ⟨joinSep [' '] (ws.map capitalizeWord)⟩ =
        joinSep [' '] (ws.map capitalizeWord) from rfl]
    apply splitWhitespaceChars_joinSep
    · simpa using hne
    · intro w hwmem
      rcases List.mem_map.mp hwmem with ⟨u, hu, rfl⟩
      obtain ⟨hune, huchars⟩ := hw u hu
      cases u with
      | nil => cases hune rfl
      | cons c rest =>
        refine ⟨by simp [capitalizeWord], fun x hx => ?_⟩
        rcases List.mem_cons.mp hx with h1 | h2
        · rw [h1]
          exact (lower_char_facts c (huchars c (List.mem_cons_self c rest))).2.2.2.1
        · exact (lower_char_facts x (huchars x (List.mem_cons_of_mem c h2))).2.2.1
  rw [hsplitws]
  have hlower : (ws.map capitalizeWord).map (fun w => w.map Char.toLower) = ws := by
    rw [List.map_map]
    have heach : ws.map ((fun w => w.map Char.toLower) ∘ capitalizeWord) = ws.map id :=
      List.map_congr_left fun u hu => lower_capitalize u (hw u hu).2
    rw [heach, List.map_id]
  rw [hlower]

/-- Witness for C8: `"my-song.wav"` → `"My Song"` → `"my-song.wav"`. -/
theorem title_filename_roundtrip_witness :
    Song.get_file_from_title (Song.get_title_from_file "my-song.wav") = "my-song.wav" :=
  title_filename_roundtrip [['m', 'y'], ['s', 'o', 'n', 'g']] (by decide) (by decide)
